import Mathlib

/-!
Verification of the helix-router-plugin core against its specification.

The data model and operations below are shallow embeddings of the
TypeScript sources: the complexity evaluator (complexity-evaluator.ts),
the routing engine (routing-engine.ts), the telemetry aggregator
(logger.ts), and the request-forwarding layer (the HelixProxy class,
whose implementation is embedded in the types.ts source file:
handleRequest, forwardRequest, handleStreamRequest and its
server-sent-events relay loop).

JavaScript numbers that carry fractional values (confidence, scores
reported by the auxiliary model) are embedded as rationals; timestamps,
latencies and counters are naturals.
-/

namespace HelixRouter

/-! ## Data model (types.ts) -/

inductive ReasoningDepth
  | low | medium | high
  deriving DecidableEq, Repr

inductive TaskType
  | classification | extraction | summarization | writing | coding
  | architecture_design | mathematical_reasoning | visualization
  | multi_step_planning | other
  deriving DecidableEq, Repr

inductive ConstraintLevel
  | low | medium | high
  deriving DecidableEq, Repr

inductive AccuracyRequirement
  | low | medium | high
  deriving DecidableEq, Repr

inductive TokenSize
  | small | medium | large | very_large
  deriving DecidableEq, Repr

structure ComplexityEvaluation where
  reasoning_depth : ReasoningDepth
  task_type : TaskType
  constraint_level : ConstraintLevel
  required_accuracy : AccuracyRequirement
  estimated_token_size : TokenSize
  complexity_score : ℚ
  confidence : ℚ
  deriving DecidableEq, Repr

/-! ## Score mappings (complexity-evaluator.ts) -/

def REASONING_DEPTH_SCORES : ReasoningDepth → ℚ
  | .low => 10
  | .medium => 20
  | .high => 30

def TASK_TYPE_SCORES : TaskType → ℚ
  | .classification => 5
  | .extraction => 5
  | .summarization => 10
  | .writing => 15
  | .coding => 20
  | .visualization => 15
  | .architecture_design => 30
  | .mathematical_reasoning => 30
  | .multi_step_planning => 25
  | .other => 15

def CONSTRAINT_LEVEL_SCORES : ConstraintLevel → ℚ
  | .low => 5
  | .medium => 10
  | .high => 20

def ACCURACY_SCORES : AccuracyRequirement → ℚ
  | .low => 5
  | .medium => 10
  | .high => 20

/-- ComplexityEvaluator.recalculateScore: the deterministic recomputation
of the complexity score from the four categorical fields, clamped to 100. -/
def recalculateScore (e : ComplexityEvaluation) : ℚ :=
  min 100
    (REASONING_DEPTH_SCORES e.reasoning_depth + TASK_TYPE_SCORES e.task_type +
      CONSTRAINT_LEVEL_SCORES e.constraint_level + ACCURACY_SCORES e.required_accuracy)

/-- ComplexityEvaluator.getDefaultEvaluation: the fixed conservative
default returned on every internal failure. -/
def getDefaultEvaluation : ComplexityEvaluation :=
  { reasoning_depth := .medium
    task_type := .other
    constraint_level := .medium
    required_accuracy := .medium
    estimated_token_size := .medium
    complexity_score := 50
    confidence := 3 / 5 }

/-! ## Raw auxiliary-model replies and validation (complexity-evaluator.ts)

A parsed JSON reply is embedded field by field: `none` means the key is
absent from the object; for the five categorical fields a present value
is its string; for the two numeric fields a present value is
`some q` when `Number(...)` yields the number `q` and `none` when it
yields `NaN`. -/

structure RawEval where
  reasoning_depth : Option String
  task_type : Option String
  constraint_level : Option String
  required_accuracy : Option String
  estimated_token_size : Option String
  complexity_score : Option (Option ℚ)
  confidence : Option (Option ℚ)
  deriving DecidableEq, Repr

def toReasoningDepth (s : String) : Option ReasoningDepth :=
  if s = "low" then some .low
  else if s = "medium" then some .medium
  else if s = "high" then some .high
  else none

def toTaskType (s : String) : Option TaskType :=
  if s = "classification" then some .classification
  else if s = "extraction" then some .extraction
  else if s = "summarization" then some .summarization
  else if s = "writing" then some .writing
  else if s = "coding" then some .coding
  else if s = "architecture_design" then some .architecture_design
  else if s = "mathematical_reasoning" then some .mathematical_reasoning
  else if s = "visualization" then some .visualization
  else if s = "multi_step_planning" then some .multi_step_planning
  else if s = "other" then some .other
  else none

def toConstraintLevel (s : String) : Option ConstraintLevel :=
  if s = "low" then some .low
  else if s = "medium" then some .medium
  else if s = "high" then some .high
  else none

def toAccuracyRequirement (s : String) : Option AccuracyRequirement :=
  if s = "low" then some .low
  else if s = "medium" then some .medium
  else if s = "high" then some .high
  else none

def toTokenSize (s : String) : Option TokenSize :=
  if s = "small" then some .small
  else if s = "medium" then some .medium
  else if s = "large" then some .large
  else if s = "very_large" then some .very_large
  else none

/-- JavaScript coercion `Number(x) || d`: `NaN` and `0` are falsy and give `d`. -/
def numOr (v : Option ℚ) (d : ℚ) : ℚ :=
  match v with
  | none => d
  | some q => if q = 0 then d else q

/-- All seven required keys are present (the `for (const field of required)`
presence check of ComplexityEvaluator.validateEvaluation). -/
def presentAll (raw : RawEval) : Bool :=
  raw.reasoning_depth.isSome && raw.task_type.isSome &&
    raw.constraint_level.isSome && raw.required_accuracy.isSome &&
    raw.estimated_token_size.isSome && raw.complexity_score.isSome &&
    raw.confidence.isSome

/-- ComplexityEvaluator.validateEvaluation: rejects (returns `none`) when
any of the seven required keys is absent; otherwise replaces each
present-but-invalid categorical value by its neutral default and clamps
the numeric fields. -/
def validateEvaluation (raw : RawEval) : Option ComplexityEvaluation :=
  if presentAll raw then
    some
      { reasoning_depth := (toReasoningDepth (raw.reasoning_depth.getD "")).getD .medium
        task_type := (toTaskType (raw.task_type.getD "")).getD .other
        constraint_level := (toConstraintLevel (raw.constraint_level.getD "")).getD .medium
        required_accuracy :=
          (toAccuracyRequirement (raw.required_accuracy.getD "")).getD .medium
        estimated_token_size := (toTokenSize (raw.estimated_token_size.getD "")).getD .medium
        complexity_score := min 100 (max 0 (numOr (raw.complexity_score.getD none) 50))
        confidence := min 1 (max 0 (numOr (raw.confidence.getD none) (1 / 2))) }
  else none

/-! ## Evaluation cache (complexity-evaluator.ts) -/

structure CacheEntry where
  evaluation : ComplexityEvaluation
  timestamp : Nat
  deriving DecidableEq, Repr

/-- The evaluator's `Map` from prompt hash to cached entry, embedded as an
association list in insertion order. -/
abbrev Cache := List (String × CacheEntry)

def lookupCache (cache : Cache) (hash : String) : Option CacheEntry :=
  match cache with
  | [] => none
  | p :: rest => if p.1 = hash then some p.2 else lookupCache rest hash

/-- JS `Map.delete`: drop the entry stored under the key (keys are unique
in a `Map`, so removing every occurrence is the same operation). -/
def eraseCache (cache : Cache) (hash : String) : Cache :=
  match cache with
  | [] => []
  | p :: rest => if p.1 = hash then eraseCache rest hash else p :: eraseCache rest hash

/-- JS `Map.set`: update the entry in place when the key exists, append
otherwise. -/
def setKey (cache : Cache) (hash : String) (e : CacheEntry) : Cache :=
  if (lookupCache cache hash).isSome then
    cache.map (fun p => if p.1 = hash then (hash, e) else p)
  else cache ++ [(hash, e)]

def insertTs (p : String × CacheEntry) : Cache → Cache
  | [] => [p]
  | q :: rest =>
      if p.2.timestamp ≤ q.2.timestamp then p :: q :: rest
      else q :: insertTs p rest

/-- Sort by ascending `createdAt` timestamp (the eviction comparator). -/
def sortByTs : Cache → Cache
  | [] => []
  | p :: rest => insertTs p (sortByTs rest)

/-- ComplexityEvaluator.setCache: insert, then evict the
oldest-by-timestamp entries while more than 1000 remain. -/
def setCache (cache : Cache) (hash : String) (ev : ComplexityEvaluation) (now : Nat) : Cache :=
  let c1 := setKey cache hash ⟨ev, now⟩
  if 1000 < c1.length then
    let toDelete := (sortByTs c1).take (c1.length - 1000)
    c1.filter (fun p => ¬ toDelete.any (fun q => q.1 = p.1))
  else c1

/-- ComplexityEvaluator.getCached: a hit requires the entry's age not to
exceed the TTL; an older entry is deleted lazily and reported absent.
Returns the (possibly shrunk) cache alongside the lookup result. -/
def getCached (ttl now : Nat) (cache : Cache) (hash : String) :
    Option ComplexityEvaluation × Cache :=
  match lookupCache cache hash with
  | none => (none, cache)
  | some entry =>
      if ttl < now - entry.timestamp then (none, eraseCache cache hash)
      else (some entry.evaluation, cache)

/-- Outcome of the single auxiliary-model call: `fetchError` covers a
network error, a non-ok HTTP status, a missing/empty `content` and a
JSON parse failure (all of which throw before validation); `reply`
carries the parsed JSON object. -/
inductive AuxOutcome
  | fetchError
  | reply (raw : RawEval)
  deriving DecidableEq, Repr

structure EvalResult where
  evaluation : ComplexityEvaluation
  latencyMs : Nat
  cached : Bool
  promptHash : String
  deriving DecidableEq, Repr

/-- ComplexityEvaluator.evaluate, with the wall clock, the content hash
and the auxiliary-model outcome made explicit.  Returns the result
together with the updated cache. -/
def evaluate (ttl now : Nat) (cache : Cache) (hash : String) (fetchLatency : Nat)
    (outcome : AuxOutcome) : EvalResult × Cache :=
  match getCached ttl now cache hash with
  | (some ev, c2) =>
      ({ evaluation := ev, latencyMs := 0, cached := true, promptHash := hash }, c2)
  | (none, c2) =>
      match outcome with
      | .fetchError =>
          ({ evaluation := getDefaultEvaluation, latencyMs := fetchLatency,
             cached := false, promptHash := hash }, c2)
      | .reply raw =>
          match validateEvaluation raw with
          | none =>
              ({ evaluation := getDefaultEvaluation, latencyMs := fetchLatency,
                 cached := false, promptHash := hash }, c2)
          | some v =>
              ({ evaluation := { v with complexity_score := recalculateScore v },
                 latencyMs := fetchLatency, cached := false, promptHash := hash },
                setCache c2 hash { v with complexity_score := recalculateScore v } now)

/-! ## Routing engine (routing-engine.ts) -/

inductive RouteTier
  | pro | mid | low
  deriving DecidableEq, Repr

structure RoutingThresholds where
  proThreshold : ℚ
  midThreshold : ℚ
  deriving DecidableEq, Repr

def DEFAULT_THRESHOLDS : RoutingThresholds :=
  { proThreshold := 75, midThreshold := 35 }

def MID_PREFERRED_TASKS : List TaskType :=
  [.visualization, .writing, .summarization]

def PRO_PREFERRED_TASKS : List TaskType :=
  [.architecture_design, .mathematical_reasoning, .multi_step_planning]

structure RoutingDecision where
  tier : RouteTier
  score : ℚ
  taskType : TaskType
  confidence : ℚ
  reasoning : String
  cached : Bool
  deriving DecidableEq, Repr

def buildDecision (tier : RouteTier) (e : ComplexityEvaluation) (reasoning : String)
    (cached : Bool) : RoutingDecision :=
  { tier := tier, score := e.complexity_score, taskType := e.task_type,
    confidence := e.confidence, reasoning := reasoning, cached := cached }

def ratStr (q : ℚ) : String := toString q.num ++ "/" ++ toString q.den

/-- RoutingEngine.decide: the ordered rule list, first match wins. -/
def RoutingEngine.decide (thresholds : RoutingThresholds) (e : ComplexityEvaluation)
    (cached : Bool) : RoutingDecision :=
  if e.estimated_token_size = .very_large then
    buildDecision .pro e "Very large token size forces PRO" cached
  else if e.confidence < 6 / 10 then
    buildDecision .mid e
      ("Low confidence (" ++ ratStr e.confidence ++ ") defaults to MID") cached
  else if 90 < e.complexity_score ∧ e.confidence < 7 / 10 then
    buildDecision .mid e
      ("High score (" ++ ratStr e.complexity_score ++ ") but low confidence -> MID") cached
  else if e.task_type ∈ MID_PREFERRED_TASKS ∧ e.complexity_score < 70 then
    buildDecision .mid e
      (ratStr e.complexity_score ++ " task prefers MID") cached
  else if e.task_type = .coding ∧ e.complexity_score < 70 then
    buildDecision .mid e
      ("Coding task with score " ++ ratStr e.complexity_score ++ " stays in MID") cached
  else if e.task_type ∈ PRO_PREFERRED_TASKS ∧ 65 ≤ e.complexity_score then
    buildDecision .pro e
      ("task with score " ++ ratStr e.complexity_score ++ " -> PRO") cached
  else if thresholds.proThreshold ≤ e.complexity_score then
    buildDecision .pro e
      ("Score " ++ ratStr e.complexity_score ++ " >= proThreshold -> PRO") cached
  else if thresholds.midThreshold ≤ e.complexity_score then
    buildDecision .mid e
      ("Score " ++ ratStr e.complexity_score ++ " >= midThreshold -> MID") cached
  else
    buildDecision .low e
      ("Score " ++ ratStr e.complexity_score ++ " < midThreshold -> LOW") cached

/-! ## Telemetry aggregator (logger.ts, StatsTracker) -/

structure RoutingLogEntry where
  score : Nat
  route : RouteTier
  taskType : TaskType
  latencyMs : Nat
  evaluationLatencyMs : Nat
  cached : Bool
  deriving DecidableEq, Repr

structure StatsState where
  totalRequests : Nat
  proCount : Nat
  midCount : Nat
  lowCount : Nat
  taskTypeCounts : TaskType → Nat
  avgScore : Nat
  avgLatencyMs : Nat
  avgEvaluationMs : Nat
  cacheHitRate : Nat
  totalScore : Nat
  totalLatency : Nat
  totalEvaluation : Nat
  cacheHits : Nat

/-- JavaScript `Math.round(num / den)` on naturals (`den > 0`): half
rounds up. -/
def jsRound (num den : Nat) : Nat := (2 * num + den) / (2 * den)

/-- StatsTracker.reset / the initial stats value. -/
def resetStats : StatsState :=
  { totalRequests := 0, proCount := 0, midCount := 0, lowCount := 0
    taskTypeCounts := fun _ => 0
    avgScore := 0, avgLatencyMs := 0, avgEvaluationMs := 0, cacheHitRate := 0
    totalScore := 0, totalLatency := 0, totalEvaluation := 0, cacheHits := 0 }

/-- StatsTracker.record: increment the counters and recompute every
running average from the accumulated totals. -/
def record (s : StatsState) (e : RoutingLogEntry) : StatsState :=
  let total := s.totalRequests + 1
  let ts := s.totalScore + e.score
  let tl := s.totalLatency + e.latencyMs
  let te := s.totalEvaluation + e.evaluationLatencyMs
  let ch := s.cacheHits + (if e.cached then 1 else 0)
  { totalRequests := total
    proCount := s.proCount + (if e.route = .pro then 1 else 0)
    midCount := s.midCount + (if e.route = .mid then 1 else 0)
    lowCount := s.lowCount + (if e.route = .low then 1 else 0)
    taskTypeCounts := fun t => if t = e.taskType then s.taskTypeCounts t + 1 else s.taskTypeCounts t
    avgScore := jsRound ts total
    avgLatencyMs := jsRound tl total
    avgEvaluationMs := jsRound te total
    cacheHitRate := jsRound (100 * ch) total
    totalScore := ts
    totalLatency := tl
    totalEvaluation := te
    cacheHits := ch }

/-! ## Streaming relay (HelixProxy.handleStreamRequest, read loop)

The relay loop of HelixProxy.handleStreamRequest (the proxy
implementation bundled after types.ts in src/src/types.ts, lines
483-519 of the embedded document): the decoded text is accumulated in
`buffer`, split on newlines with the last fragment carried over
(`buffer = lines.pop()`), and each complete line is trimmed; empty
lines and lines not starting with `data:` are skipped, the tag is
removed with `slice(5)` plus a second trim, the `[DONE]` payload yields
the explicit end-of-stream chunk, and a payload that fails to parse is
skipped.  JSON parsing of a payload (and the chunk's model rewrite) is
abstracted behind `parse`. -/

inductive RelayOut (P : Type)
  | data (payload : P)
  | done
  deriving DecidableEq, Repr

/-- The ASCII whitespace recognised by the JS `trim()` calls of the
relay (the wire format only produces spaces, tabs, CR and LF). -/
def isWS (c : Char) : Bool :=
  c = ' ' || c = '\t' || c = '\r' || c = '\n'

def trimLeft : List Char → List Char
  | [] => []
  | c :: rest => if isWS c then trimLeft rest else c :: rest

/-- JavaScript `String.prototype.trim`: strip whitespace at both ends. -/
def jsTrim (l : List Char) : List Char :=
  (trimLeft (trimLeft l).reverse).reverse

/-- JavaScript `trimmed.startsWith("data:")` — five characters, no
space required after the colon. -/
def startsWithData : List Char → Bool
  | 'd' :: 'a' :: 't' :: 'a' :: ':' :: _ => true
  | _ => false

/-- One iteration of the `for (const line of lines)` body: trim the
line; skip it when empty or when it does not start with `data:`;
otherwise drop the five tag characters, trim again, translate `[DONE]`
to the end-of-stream chunk, and parse anything else, skipping a
malformed payload. -/
def processLine (parse : List Char → Option P) (line : List Char) : Option (RelayOut P) :=
  if jsTrim line = [] then none
  else if startsWithData (jsTrim line) = false then none
  else if jsTrim ((jsTrim line).drop 5) = "[DONE]".data then some .done
  else
    match parse (jsTrim ((jsTrim line).drop 5)) with
    | some chunk => some (.data chunk)
    | none => none

/-- Split a character list into the complete lines before each newline
and the trailing partial line; `cur` is the partial line carried in. -/
def splitLinesAux (cur : List Char) : List Char → List (List Char) × List Char
  | [] => ([], cur)
  | c :: rest =>
      if c = '\n' then
        ((cur :: (splitLinesAux [] rest).1, (splitLinesAux [] rest).2))
      else splitLinesAux (cur ++ [c]) rest

/-- One read: append the chunk to the buffer, split off the complete
lines, parse them, and carry the remainder as the new buffer. -/
def feedChunk (parse : List Char → Option P) (buf chunk : List Char) :
    List Char × List (RelayOut P) :=
  let r := splitLinesAux [] (buf ++ chunk)
  (r.2, r.1.filterMap (processLine parse))

/-- Relay a sequence of reads starting from buffer `buf`. -/
def runFrom (parse : List Char → Option P) (buf : List Char) :
    List (List Char) → List (RelayOut P)
  | [] => []
  | c :: cs =>
      let r := feedChunk parse buf c
      r.2 ++ runFrom parse r.1 cs

/-- The full relay of a chunked backend stream. -/
def relayRun (parse : List Char → Option P) (cs : List (List Char)) : List (RelayOut P) :=
  runFrom parse [] cs

/-! ## Forwarding layer (HelixProxy, bundled after types.ts in src/src/types.ts)

The backend is an oracle mapping each attempted tier and forwarded
request to the observed outcome of its `fetch`: the promise either
rejects (network failure — `fetch` never throws on a non-2xx status) or
resolves to a response with a status code and a body. -/

structure ProviderConfig where
  baseUrl : String
  apiKey : String
  model : String
  deriving DecidableEq, Repr

structure ProvidersConfig where
  pro : ProviderConfig
  mid : ProviderConfig
  low : ProviderConfig
  deriving DecidableEq, Repr

/-- RoutingEngine.getProvider. -/
def ProvidersConfig.get (ps : ProvidersConfig) : RouteTier → ProviderConfig
  | .pro => ps.pro
  | .mid => ps.mid
  | .low => ps.low

def tierName : RouteTier → String
  | .pro => "pro"
  | .mid => "mid"
  | .low => "low"

/-- The request as the forwarding layer sees it: the inbound `model`
field, the `stream` flag, and the rest of the body left opaque. -/
structure ProxyRequest (α : Type) where
  model : String
  stream : Bool
  payload : α
  deriving DecidableEq, Repr

/-- Outcome of one `fetch` to a backend: a rejected promise (network
failure), or a resolved response carrying its HTTP status (2xx or not)
and body. -/
inductive BackendOutcome (β : Type)
  | netError
  | reply (status : Nat) (body : β)
  deriving DecidableEq, Repr

/-- HelixProxy.forwardRequest's request construction (embedded proxy
lines 398-427): spread the original request, rewrite `model` to the
explicitly requested tier's model when the caller named one
(`helix-router/pro`, `pro`, ...), otherwise to the passed provider's
model — the provider of the routed tier.  The function performs no
`response.ok` check; the fetched response is returned as-is. -/
def HelixProxy.forwardedRequest (ps : ProvidersConfig) (req : ProxyRequest α)
    (tier : RouteTier) : ProxyRequest α :=
  { model :=
      if req.model = "helix-router/pro" ∨ req.model = "pro" then ps.pro.model
      else if req.model = "helix-router/mid" ∨ req.model = "mid" then ps.mid.model
      else if req.model = "helix-router/low" ∨ req.model = "low" then ps.low.model
      else (ps.get tier).model,
    stream := req.stream, payload := req.payload }

/-- What HelixProxy.handleRequest hands back to its caller: the
backend's response — whatever its status — or a thrown error. -/
inductive HandleResult (β : Type)
  | response (tier : RouteTier) (status : Nat) (body : β)
  | thrown (msg : String)
  deriving DecidableEq, Repr

/-- HelixProxy.handleRequest (embedded proxy lines 322-393): evaluate,
decide, forward to the decided tier via forwardRequest, and return the
response regardless of its status (no `response.ok` check on this
path); the surrounding catch recovers a thrown error — from
evaluation/decision (`computed = .error`) or from a rejected fetch —
exactly once by calling forwardRequest against the `mid` provider, and
an error thrown by that fallback propagates to the caller.  The second
component records every forwarding attempt in order. -/
def HelixProxy.handleRequest (ps : ProvidersConfig) (computed : Except String RouteTier)
    (backend : RouteTier → ProxyRequest α → BackendOutcome β)
    (req : ProxyRequest α) : HandleResult β × List (RouteTier × ProxyRequest α) :=
  match computed with
  | .error _ =>
      match backend .mid (HelixProxy.forwardedRequest ps req .mid) with
      | .reply s b => (.response .mid s b, [(.mid, HelixProxy.forwardedRequest ps req .mid)])
      | .netError => (.thrown "fetch failed", [(.mid, HelixProxy.forwardedRequest ps req .mid)])
  | .ok tier =>
      match backend tier (HelixProxy.forwardedRequest ps req tier) with
      | .reply s b => (.response tier s b, [(tier, HelixProxy.forwardedRequest ps req tier)])
      | .netError =>
          match backend .mid (HelixProxy.forwardedRequest ps req .mid) with
          | .reply s b =>
              (.response .mid s b,
                [(tier, HelixProxy.forwardedRequest ps req tier),
                  (.mid, HelixProxy.forwardedRequest ps req .mid)])
          | .netError =>
              (.thrown "fetch failed",
                [(tier, HelixProxy.forwardedRequest ps req tier),
                  (.mid, HelixProxy.forwardedRequest ps req .mid)])

/-- The request sent by HelixProxy.handleStreamRequest (embedded proxy
lines 459-463): the routed provider's model with `stream := true` — no
explicit-tier mapping is applied on this path. -/
def HelixProxy.streamRequest (ps : ProvidersConfig) (req : ProxyRequest α)
    (tier : RouteTier) : ProxyRequest α :=
  { model := (ps.get tier).model, stream := true, payload := req.payload }

/-- What the streaming path produces: the relayed chunk sequence, or a
rethrown error. -/
inductive StreamResult (P : Type)
  | chunks (tier : RouteTier) (outs : List (RelayOut P))
  | thrown (msg : String)
  deriving DecidableEq, Repr

/-- HelixProxy.handleStreamRequest (embedded proxy lines 435-545):
forward to the routed tier with `stream := true` and no explicit-tier
override, throw on a non-2xx status (`if (!response.ok) throw`) or on a
rejected fetch, and relay the body through the line-buffering loop; the
catch block only logs and rethrows — there is no fallback on this
path. -/
def HelixProxy.handleStreamRequest (ps : ProvidersConfig)
    (computed : Except String RouteTier)
    (backend : RouteTier → ProxyRequest α → BackendOutcome (List (List Char)))
    (parse : List Char → Option P)
    (req : ProxyRequest α) : StreamResult P × List (RouteTier × ProxyRequest α) :=
  match computed with
  | .error e => (.thrown e, [])
  | .ok tier =>
      match backend tier (HelixProxy.streamRequest ps req tier) with
      | .netError => (.thrown "fetch failed", [(tier, HelixProxy.streamRequest ps req tier)])
      | .reply s body =>
          if 200 ≤ s ∧ s < 300 then
            (.chunks tier (relayRun parse body), [(tier, HelixProxy.streamRequest ps req tier)])
          else (.thrown "Provider error", [(tier, HelixProxy.streamRequest ps req tier)])

/-! ## Streaming relay lemmas -/

/-- No newline occurs in the list (a partial line). -/
def noNL (l : List Char) : Prop := ∀ c ∈ l, c ≠ '\n'

instance (l : List Char) : Decidable (noNL l) :=
  inferInstanceAs (Decidable (∀ c ∈ l, c ≠ '\n'))

theorem noNL_nil : noNL [] := by
  intro c hc
  simp at hc

theorem noNL_append {a b : List Char} (ha : noNL a) (hb : noNL b) : noNL (a ++ b) := by
  intro c hc
  rcases List.mem_append.1 hc with hc | hc
  · exact ha c hc
  · exact hb c hc

theorem splitLinesAux_nil (cur : List Char) : splitLinesAux cur [] = ([], cur) := rfl

theorem splitLinesAux_newline (cur rest : List Char) :
    splitLinesAux cur ('\n' :: rest) =
      ((cur :: (splitLinesAux [] rest).1, (splitLinesAux [] rest).2)) := by
  show (if '\n' = '\n'
        then ((cur :: (splitLinesAux [] rest).1, (splitLinesAux [] rest).2))
        else splitLinesAux (cur ++ ['\n']) rest) =
      ((cur :: (splitLinesAux [] rest).1, (splitLinesAux [] rest).2))
  rw [if_pos rfl]

theorem splitLinesAux_other (cur : List Char) (c : Char) (rest : List Char)
    (hc : ¬ c = '\n') : splitLinesAux cur (c :: rest) = splitLinesAux (cur ++ [c]) rest := by
  show (if c = '\n'
        then ((cur :: (splitLinesAux [] rest).1, (splitLinesAux [] rest).2))
        else splitLinesAux (cur ++ [c]) rest) = splitLinesAux (cur ++ [c]) rest
  rw [if_neg hc]

/-- Splitting a concatenation: split the first part, then continue from
its remainder. -/
theorem splitLinesAux_append (xs ys : List Char) : ∀ cur : List Char,
    splitLinesAux cur (xs ++ ys) =
      ((splitLinesAux cur xs).1 ++ (splitLinesAux (splitLinesAux cur xs).2 ys).1,
        (splitLinesAux (splitLinesAux cur xs).2 ys).2) := by
  induction xs with
  | nil =>
      intro cur
      simp [splitLinesAux_nil]
  | cons c xs ih =>
      intro cur
      by_cases hc : c = '\n'
      · subst hc
        rw [List.cons_append, splitLinesAux_newline, splitLinesAux_newline, ih ([] : List Char)]
        simp
      · rw [List.cons_append, splitLinesAux_other _ _ _ hc, splitLinesAux_other _ _ _ hc,
          ih (cur ++ [c])]

/-- The remainder carried out of a split never contains a newline. -/
theorem splitLinesAux_snd_noNL (xs : List Char) : ∀ cur : List Char, noNL cur →
    noNL (splitLinesAux cur xs).2 := by
  induction xs with
  | nil =>
      intro cur h
      rw [splitLinesAux_nil]
      exact h
  | cons c xs ih =>
      intro cur h
      by_cases hc : c = '\n'
      · subst hc
        rw [splitLinesAux_newline]
        exact ih [] noNL_nil
      · rw [splitLinesAux_other _ _ _ hc]
        exact ih (cur ++ [c]) (noNL_append h (by intro x hx; simp at hx; rw [hx]; exact hc))

/-- Splitting an input with no newline yields no complete line. -/
theorem splitLinesAux_noNL_eq (xs : List Char) (h : noNL xs) : ∀ cur : List Char,
    splitLinesAux cur xs = ([], cur ++ xs) := by
  induction xs with
  | nil =>
      intro cur
      simp [splitLinesAux_nil]
  | cons c xs ih =>
      intro cur
      have hc : ¬ c = '\n' := h c (List.mem_cons_self _ _)
      rw [splitLinesAux_other _ _ _ hc,
        ih (fun x hx => h x (List.mem_cons_of_mem _ hx)) (cur ++ [c])]
      simp

/-- A newline-free carried line can be moved into the input. -/
theorem splitLinesAux_shift (cur : List Char) (h : noNL cur) : ∀ pre xs : List Char,
    splitLinesAux (pre ++ cur) xs = splitLinesAux pre (cur ++ xs) := by
  induction cur with
  | nil =>
      intro pre xs
      simp
  | cons c cur ih =>
      intro pre xs
      have hc : ¬ c = '\n' := h c (List.mem_cons_self _ _)
      rw [List.cons_append, splitLinesAux_other _ _ _ hc,
        ← ih (fun x hx => h x (List.mem_cons_of_mem _ hx)) (pre ++ [c]) xs]
      simp

/-- Feeding a concatenation of two chunks equals feeding them one after
the other, with the outputs concatenated. -/
theorem feedChunk_append {P : Type} (parse : List Char → Option P) (buf a b : List Char) :
    feedChunk parse buf (a ++ b) =
      ((feedChunk parse (feedChunk parse buf a).1 b).1,
        (feedChunk parse buf a).2 ++ (feedChunk parse (feedChunk parse buf a).1 b).2) := by
  have hA : noNL (splitLinesAux [] (buf ++ a)).2 :=
    splitLinesAux_snd_noNL (buf ++ a) [] noNL_nil
  have hshift : splitLinesAux (splitLinesAux [] (buf ++ a)).2 b =
      splitLinesAux [] ((splitLinesAux [] (buf ++ a)).2 ++ b) := by
    have := splitLinesAux_shift (splitLinesAux [] (buf ++ a)).2 hA [] b
    simpa using this
  show ((splitLinesAux [] (buf ++ (a ++ b))).2,
      (splitLinesAux [] (buf ++ (a ++ b))).1.filterMap (processLine parse)) =
    ((feedChunk parse (feedChunk parse buf a).1 b).1,
      (feedChunk parse buf a).2 ++ (feedChunk parse (feedChunk parse buf a).1 b).2)
  rw [← List.append_assoc, splitLinesAux_append (buf ++ a) b ([] : List Char), hshift]
  simp [feedChunk, List.filterMap_append]

/-- Relaying any chunk sequence from a newline-free buffer yields the
outputs of feeding the whole concatenated stream at once. -/
theorem runFrom_join {P : Type} (parse : List Char → Option P) (cs : List (List Char)) :
    ∀ buf : List Char, noNL buf →
      runFrom parse buf cs = (feedChunk parse buf cs.flatten).2 := by
  induction cs with
  | nil =>
      intro buf h
      show ([] : List (RelayOut P)) = (feedChunk parse buf [].flatten).2
      simp [feedChunk, List.append_nil, splitLinesAux_noNL_eq buf h]
  | cons a cs ih =>
      intro buf h
      show (feedChunk parse buf a).2 ++ runFrom parse (feedChunk parse buf a).1 cs =
        (feedChunk parse buf (a :: cs).flatten).2
      have hbuf' : noNL (feedChunk parse buf a).1 :=
        splitLinesAux_snd_noNL (buf ++ a) [] noNL_nil
      rw [ih (feedChunk parse buf a).1 hbuf', List.flatten_cons, feedChunk_append]

/-- One complete newline-terminated line at the front of the input. -/
theorem splitLinesAux_line (l rest : List Char) (hl : noNL l) (cur : List Char) :
    splitLinesAux cur ((l ++ ['\n']) ++ rest) =
      ((cur ++ l) :: (splitLinesAux [] rest).1, (splitLinesAux [] rest).2) := by
  rw [List.append_assoc, List.singleton_append,
    ← splitLinesAux_shift l hl cur ('\n' :: rest), splitLinesAux_newline]

/-- No whitespace anywhere in the list (a trim-stable payload). -/
def noWS (l : List Char) : Prop := ∀ c ∈ l, isWS c = false

instance (l : List Char) : Decidable (noWS l) :=
  inferInstanceAs (Decidable (∀ c ∈ l, isWS c = false))

theorem trimLeft_cons_nonWS {c : Char} {l : List Char} (h : isWS c = false) :
    trimLeft (c :: l) = c :: l := by
  simp [trimLeft, h]

/-- Processing one complete `data: <payload>` line whose payload is
nonempty and whitespace-free: the trims have no effect, the tag is
stripped, `[DONE]` becomes the end marker, and any other payload is
parsed (a failing parse is skipped). -/
theorem processLine_data_line {P : Type} (parse : List Char → Option P)
    (payload : List Char) (hne : payload ≠ []) (hws : noWS payload) :
    processLine parse ("data: ".data ++ payload) =
      (if payload = "[DONE]".data then some RelayOut.done
        else
          match parse payload with
          | some c => some (RelayOut.data c)
          | none => none) := by
  obtain ⟨q, qs, hq⟩ : ∃ q qs, payload.reverse = q :: qs := by
    cases h : payload.reverse with
    | nil => exact absurd (List.reverse_eq_nil_iff.mp h) hne
    | cons q qs => exact ⟨q, qs, rfl⟩
  have hqws : isWS q = false := by
    refine hws q ?_
    rw [← List.mem_reverse, hq]
    exact List.mem_cons_self _ _
  have h1 : trimLeft ("data: ".data ++ payload) = "data: ".data ++ payload := rfl
  have h2 : trimLeft ("data: ".data ++ payload).reverse =
      ("data: ".data ++ payload).reverse := by
    rw [List.reverse_append, hq, List.cons_append, trimLeft_cons_nonWS hqws]
  have htr : jsTrim ("data: ".data ++ payload) = "data: ".data ++ payload := by
    unfold jsTrim
    rw [h1, h2, List.reverse_reverse]
  obtain ⟨p, ps, hp⟩ : ∃ p ps, payload = p :: ps := by
    cases payload with
    | nil => exact absurd rfl hne
    | cons p ps => exact ⟨p, ps, rfl⟩
  have hpws : isWS p = false := by
    refine hws p ?_
    rw [hp]
    exact List.mem_cons_self _ _
  have h3 : jsTrim (' ' :: payload) = payload := by
    unfold jsTrim
    have e1 : trimLeft (' ' :: payload) = payload := by
      rw [hp]
      show (if isWS ' ' then trimLeft (p :: ps) else ' ' :: p :: ps) = p :: ps
      rw [if_pos (by decide), trimLeft_cons_nonWS hpws]
    rw [e1]
    have e2 : trimLeft payload.reverse = payload.reverse := by
      rw [hq, trimLeft_cons_nonWS hqws]
    rw [e2, List.reverse_reverse]
  have h4 : ("data: ".data ++ payload).drop 5 = ' ' :: payload := rfl
  show (if jsTrim ("data: ".data ++ payload) = [] then none
        else if startsWithData (jsTrim ("data: ".data ++ payload)) = false then none
        else if jsTrim ((jsTrim ("data: ".data ++ payload)).drop 5) = "[DONE]".data then
          some RelayOut.done
        else
          match parse (jsTrim ((jsTrim ("data: ".data ++ payload)).drop 5)) with
          | some c => some (RelayOut.data c)
          | none => none) = _
  rw [htr, h4, h3]
  rw [if_neg (fun hcontra => List.noConfusion hcontra),
    if_neg (fun hcontra => Bool.noConfusion hcontra)]

/-! ## Cache well-formedness -/

/-- Every cached evaluation stores its recomputed score (entries are only
inserted after `recalculateScore`). -/
def CacheWF (c : Cache) : Prop :=
  ∀ p ∈ c, p.2.evaluation.complexity_score = recalculateScore p.2.evaluation

theorem lookupCache_mem {c : Cache} {h : String} {e : CacheEntry}
    (hl : lookupCache c h = some e) : (h, e) ∈ c := by
  induction c with
  | nil => simp [lookupCache] at hl
  | cons p rest ih =>
      unfold lookupCache at hl
      by_cases hp : p.1 = h
      · rw [if_pos hp] at hl
        injection hl with hl
        subst hl
        rw [← hp]
        exact List.mem_cons_self _ _
      · rw [if_neg hp] at hl
        exact List.mem_cons_of_mem _ (ih hl)

theorem mem_eraseCache {c : Cache} {h : String} {p : String × CacheEntry}
    (hp : p ∈ eraseCache c h) : p ∈ c := by
  induction c with
  | nil => simp [eraseCache] at hp
  | cons q rest ih =>
      unfold eraseCache at hp
      by_cases hq : q.1 = h
      · rw [if_pos hq] at hp
        exact List.mem_cons_of_mem _ (ih hp)
      · rw [if_neg hq] at hp
        rcases List.mem_cons.1 hp with hp | hp
        · exact hp ▸ List.mem_cons_self _ _
        · exact List.mem_cons_of_mem _ (ih hp)

theorem mem_setKey {c : Cache} {h : String} {e : CacheEntry} {p : String × CacheEntry}
    (hp : p ∈ setKey c h e) : p = (h, e) ∨ p ∈ c := by
  unfold setKey at hp
  by_cases hs : (lookupCache c h).isSome
  · rw [if_pos hs] at hp
    rcases List.mem_map.1 hp with ⟨q, hq, hqe⟩
    by_cases hqh : q.1 = h
    · rw [if_pos hqh] at hqe
      exact Or.inl hqe.symm
    · rw [if_neg hqh] at hqe
      exact Or.inr (hqe ▸ hq)
  · rw [if_neg hs] at hp
    rcases List.mem_append.1 hp with hp | hp
    · exact Or.inr hp
    · simp at hp
      exact Or.inl hp

theorem mem_setCache {c : Cache} {h : String} {ev : ComplexityEvaluation} {now : Nat}
    {p : String × CacheEntry} (hp : p ∈ setCache c h ev now) :
    p = (h, ⟨ev, now⟩) ∨ p ∈ c := by
  unfold setCache at hp
  by_cases hl : 1000 < (setKey c h (⟨ev, now⟩ : CacheEntry)).length
  · rw [if_pos hl] at hp
    exact mem_setKey (List.mem_of_mem_filter hp)
  · rw [if_neg hl] at hp
    exact mem_setKey hp

theorem recalculateScore_set_score (v : ComplexityEvaluation) (s : ℚ) :
    recalculateScore { v with complexity_score := s } = recalculateScore v := rfl

theorem getCached_fst_inv {ttl now : Nat} {cache : Cache} {hash : String}
    (hwf : CacheWF cache) {ev : ComplexityEvaluation}
    (hg : (getCached ttl now cache hash).1 = some ev) :
    ev.complexity_score = recalculateScore ev := by
  unfold getCached at hg
  split at hg
  · simp at hg
  next entry hlk =>
    split at hg
    · simp at hg
    · simp at hg
      exact hg ▸ hwf (hash, entry) (lookupCache_mem hlk)

theorem getCached_snd_wf {ttl now : Nat} {cache : Cache} {hash : String}
    (hwf : CacheWF cache) : CacheWF (getCached ttl now cache hash).2 := by
  unfold getCached
  split
  · exact hwf
  next entry hlk =>
    split
    · exact fun p hp => hwf p (mem_eraseCache hp)
    · exact hwf

theorem setCache_wf {c : Cache} {h : String} {v : ComplexityEvaluation} {now : Nat}
    (hwf : CacheWF c) (hv : v.complexity_score = recalculateScore v) :
    CacheWF (setCache c h v now) := by
  intro p hp
  rcases mem_setCache hp with hp | hp
  · rw [hp]
    exact hv
  · exact hwf p hp

/-! ## Claim theorems -/

/-- C1 (counterexample): on a failure of the auxiliary-model call,
`evaluate` returns the fixed default whose `complexity_score` is 50,
while the deterministic recomputation from its categorical fields
(medium/other/medium/medium) yields 55 — so the stated invariant does
not hold for replies that fail to fetch, parse, or validate. -/
theorem default_evaluation_score_not_recomputed :
    (evaluate 3600000 0 [] "h" 5 .fetchError).1.evaluation.complexity_score = 50
    ∧ recalculateScore (evaluate 3600000 0 [] "h" 5 .fetchError).1.evaluation = 55
    ∧ (50 : ℚ) ≠ 55 := by
  refine ⟨rfl, ?_, by norm_num⟩
  show recalculateScore getDefaultEvaluation = 55
  show min (100 : ℚ) (20 + 15 + 10 + 10) = 55
  norm_num

/-- C1 (amended): starting from a cache whose entries all store their
recomputed score, every result of `evaluate` either is the fixed
conservative default (whose score is the constant 50, not the
recomputation 55 of its fields) or satisfies
`complexity_score = recalculateScore`, and the cache invariant is
preserved. -/
theorem evaluate_score_recomputed_or_default (ttl now : Nat) (cache : Cache)
    (hash : String) (lat : Nat) (outcome : AuxOutcome) (hwf : CacheWF cache) :
    ((evaluate ttl now cache hash lat outcome).1.evaluation = getDefaultEvaluation ∨
      (evaluate ttl now cache hash lat outcome).1.evaluation.complexity_score =
        recalculateScore (evaluate ttl now cache hash lat outcome).1.evaluation)
    ∧ CacheWF (evaluate ttl now cache hash lat outcome).2 := by
  rcases hgc : getCached ttl now cache hash with ⟨r, c2⟩
  have h1 : (getCached ttl now cache hash).1 = r := by rw [hgc]
  have h2 : (getCached ttl now cache hash).2 = c2 := by rw [hgc]
  have hwf2 : CacheWF c2 := h2 ▸ getCached_snd_wf hwf
  cases r with
  | some ev =>
      refine ⟨Or.inr ?_, ?_⟩
      · simp only [evaluate, hgc]
        exact getCached_fst_inv hwf h1
      · simp only [evaluate, hgc]
        exact hwf2
  | none =>
      cases outcome with
      | fetchError =>
          refine ⟨Or.inl ?_, ?_⟩
          · simp only [evaluate, hgc]
          · simp only [evaluate, hgc]
            exact hwf2
      | reply raw =>
          cases hv : validateEvaluation raw with
          | none =>
              refine ⟨Or.inl ?_, ?_⟩
              · simp only [evaluate, hgc, hv]
              · simp only [evaluate, hgc, hv]
                exact hwf2
          | some v =>
              refine ⟨Or.inr ?_, ?_⟩
              · simp only [evaluate, hgc, hv]
                rfl
              · simp only [evaluate, hgc, hv]
                exact setCache_wf hwf2 rfl

/-- C1 (witness): the amended theorem instantiated on the empty cache
and a failing auxiliary call — the default branch of the disjunction
holds, and the empty cache trivially satisfies the invariant. -/
theorem evaluate_score_recomputed_or_default_witness :
    ((evaluate 3600000 7 [] "w1" 5 .fetchError).1.evaluation = getDefaultEvaluation ∨
      (evaluate 3600000 7 [] "w1" 5 .fetchError).1.evaluation.complexity_score =
        recalculateScore (evaluate 3600000 7 [] "w1" 5 .fetchError).1.evaluation)
    ∧ CacheWF (evaluate 3600000 7 [] "w1" 5 .fetchError).2 :=
  evaluate_score_recomputed_or_default 3600000 7 [] "w1" 5 .fetchError
    (by intro p hp; simp at hp)

/-- A fixed evaluation shape for the routing scenarios: the fields the
rules inspect are the arguments, the rest are neutral. -/
def scenarioEval (td : TaskType) (ts : TokenSize) (score conf : ℚ) : ComplexityEvaluation :=
  { reasoning_depth := .medium, task_type := td, constraint_level := .medium,
    required_accuracy := .medium, estimated_token_size := ts,
    complexity_score := score, confidence := conf }

/-- C2: with the default thresholds (75/35) the ordered rules give —
very_large forces pro at score 10 (rule 1); confidence 0.4 forces mid at
score 95 (rule 2); writing at 60 with confidence 0.9 goes mid (rule 4);
architecture_design at 80 goes pro (rule 6); task other at 80 banding
gives pro and at 50 gives mid (rule 7). -/
theorem decide_rule_order_scenarios :
    (RoutingEngine.decide DEFAULT_THRESHOLDS
        (scenarioEval .other .very_large 10 (9 / 10)) false).tier = .pro
    ∧ (RoutingEngine.decide DEFAULT_THRESHOLDS
        (scenarioEval .other .medium 95 (2 / 5)) false).tier = .mid
    ∧ (RoutingEngine.decide DEFAULT_THRESHOLDS
        (scenarioEval .writing .medium 60 (9 / 10)) false).tier = .mid
    ∧ (RoutingEngine.decide DEFAULT_THRESHOLDS
        (scenarioEval .architecture_design .medium 80 (9 / 10)) false).tier = .pro
    ∧ (RoutingEngine.decide DEFAULT_THRESHOLDS
        (scenarioEval .other .medium 80 (9 / 10)) false).tier = .pro
    ∧ (RoutingEngine.decide DEFAULT_THRESHOLDS
        (scenarioEval .other .medium 50 (9 / 10)) false).tier = .mid := by
  refine ⟨?_, ?_, ?_, ?_, ?_, ?_⟩ <;>
    norm_num [RoutingEngine.decide, scenarioEval, DEFAULT_THRESHOLDS,
      MID_PREFERRED_TASKS, PRO_PREFERRED_TASKS, buildDecision,
      List.mem_cons, List.not_mem_nil] <;>
    decide

/-! ## Stats lemmas -/

theorem record_counters (es : List RoutingLogEntry) : ∀ s : StatsState,
    (es.foldl record s).totalRequests = s.totalRequests + es.length ∧
    (es.foldl record s).totalScore = s.totalScore + (es.map RoutingLogEntry.score).sum ∧
    (es.foldl record s).cacheHits =
      s.cacheHits + (es.filter (fun e => e.cached)).length := by
  induction es with
  | nil => intro s; simp
  | cons e rest ih =>
      intro s
      rcases ih (record s e) with ⟨h1, h2, h3⟩
      refine ⟨?_, ?_, ?_⟩
      · rw [List.foldl_cons, h1]
        show s.totalRequests + 1 + rest.length = s.totalRequests + (rest.length + 1)
        omega
      · rw [List.foldl_cons, h2]
        show s.totalScore + e.score + (rest.map RoutingLogEntry.score).sum = _
        rw [List.map_cons, List.sum_cons]
        omega
      · rw [List.foldl_cons, h3]
        show s.cacheHits + (if e.cached then 1 else 0) + _ = _
        cases hc : e.cached
        · simp [List.filter_cons, hc]
        · simp [List.filter_cons, hc]
          omega

theorem record_averages (es : List RoutingLogEntry) : ∀ s : StatsState, es ≠ [] →
    (es.foldl record s).avgScore =
      jsRound (es.foldl record s).totalScore (es.foldl record s).totalRequests ∧
    (es.foldl record s).cacheHitRate =
      jsRound (100 * (es.foldl record s).cacheHits) (es.foldl record s).totalRequests := by
  induction es with
  | nil => intro s h; exact absurd rfl h
  | cons e rest ih =>
      intro s _
      cases rest with
      | nil => exact ⟨rfl, rfl⟩
      | cons e' rest' =>
          exact ih (record s e) (List.cons_ne_nil _ _)

/-- C9: after any nonempty sequence of recorded entries, `avgScore` is
the rounded arithmetic mean of the recorded scores and `cacheHitRate` is
the rounded percentage of entries recorded with `cached = true`. -/
theorem stats_avg_and_hit_rate (es : List RoutingLogEntry) (h : es ≠ []) :
    (es.foldl record resetStats).avgScore =
      jsRound (es.map RoutingLogEntry.score).sum es.length
    ∧ (es.foldl record resetStats).cacheHitRate =
      jsRound (100 * (es.filter (fun e => e.cached)).length) es.length := by
  rcases record_counters es resetStats with ⟨h1, h2, h3⟩
  rcases record_averages es resetStats h with ⟨h4, h5⟩
  rw [h4, h5, h1, h2, h3]
  show jsRound (0 + _) (0 + _) = _ ∧ jsRound (100 * (0 + _)) (0 + _) = _
  rw [Nat.zero_add, Nat.zero_add, Nat.zero_add]
  exact ⟨rfl, rfl⟩

/-! ## Cache lookup lemmas -/

theorem lookupCache_cons_eq {p : String × CacheEntry} {rest : Cache} {k : String}
    (hpk : p.1 = k) : lookupCache (p :: rest) k = some p.2 := by
  show (if p.1 = k then some p.2 else lookupCache rest k) = some p.2
  rw [if_pos hpk]

theorem lookupCache_cons_ne {p : String × CacheEntry} {rest : Cache} {k : String}
    (hpk : ¬ p.1 = k) : lookupCache (p :: rest) k = lookupCache rest k := by
  show (if p.1 = k then some p.2 else lookupCache rest k) = lookupCache rest k
  rw [if_neg hpk]

theorem lookup_eraseCache_self (c : Cache) (h : String) :
    lookupCache (eraseCache c h) h = none := by
  induction c with
  | nil => rfl
  | cons p rest ih =>
      unfold eraseCache
      by_cases hp : p.1 = h
      · rw [if_pos hp]
        exact ih
      · rw [if_neg hp, lookupCache_cons_ne hp]
        exact ih

theorem lookup_eraseCache_ne (c : Cache) (h k : String) (hk : k ≠ h) :
    lookupCache (eraseCache c h) k = lookupCache c k := by
  induction c with
  | nil => rfl
  | cons p rest ih =>
      unfold eraseCache
      by_cases hp : p.1 = h
      · rw [if_pos hp, lookupCache_cons_ne (fun he => hk (he.symm.trans hp))]
        exact ih
      · rw [if_neg hp]
        by_cases hpk : p.1 = k
        · rw [lookupCache_cons_eq hpk, lookupCache_cons_eq hpk]
        · rw [lookupCache_cons_ne hpk, lookupCache_cons_ne hpk]
          exact ih

theorem lookup_setKey_self (c : Cache) (h : String) (e : CacheEntry) :
    lookupCache (setKey c h e) h = some e := by
  unfold setKey
  by_cases hs : (lookupCache c h).isSome
  · rw [if_pos hs]
    induction c with
    | nil => simp [lookupCache] at hs
    | cons p rest ih =>
        by_cases hp : p.1 = h
        · simp only [List.map_cons]
          rw [if_pos hp]
          unfold lookupCache
          rw [if_pos rfl]
        · simp only [List.map_cons]
          rw [if_neg hp]
          unfold lookupCache
          rw [if_neg hp]
          unfold lookupCache at hs
          rw [if_neg hp] at hs
          exact ih hs
  · rw [if_neg hs]
    induction c with
    | nil =>
        show lookupCache [(h, e)] h = some e
        unfold lookupCache
        rw [if_pos rfl]
    | cons p rest ih =>
        unfold lookupCache at hs
        by_cases hp : p.1 = h
        · rw [if_pos hp] at hs
          simp at hs
        · rw [if_neg hp] at hs
          show lookupCache (p :: (rest ++ [(h, e)])) h = some e
          unfold lookupCache
          rw [if_neg hp]
          exact ih hs

theorem length_setKey_le (c : Cache) (h : String) (e : CacheEntry) :
    (setKey c h e).length ≤ c.length + 1 := by
  unfold setKey
  by_cases hs : (lookupCache c h).isSome
  · rw [if_pos hs, List.length_map]
    omega
  · rw [if_neg hs, List.length_append]
    simp

theorem setCache_no_evict (c : Cache) (h : String) (ev : ComplexityEvaluation) (now : Nat)
    (hlen : c.length < 1000) : setCache c h ev now = setKey c h ⟨ev, now⟩ := by
  unfold setCache
  rw [if_neg]
  have := length_setKey_le c h (⟨ev, now⟩ : CacheEntry)
  omega

theorem getCached_none_of_lookup_none {ttl t : Nat} {c : Cache} {h : String}
    (hl : lookupCache c h = none) : (getCached ttl t c h).1 = none := by
  unfold getCached
  rw [hl]

theorem getCached_hit {ttl t : Nat} {c : Cache} {h : String} {e : CacheEntry}
    (hl : lookupCache c h = some e) (ht : ¬ ttl < t - e.timestamp) :
    getCached ttl t c h = (some e.evaluation, c) := by
  unfold getCached
  rw [hl]
  show (if ttl < t - e.timestamp then (none, eraseCache c h)
        else (some e.evaluation, c)) = (some e.evaluation, c)
  rw [if_neg ht]

theorem getCached_expired {ttl t : Nat} {c : Cache} {h : String} {e : CacheEntry}
    (hl : lookupCache c h = some e) (ht : ttl < t - e.timestamp) :
    getCached ttl t c h = (none, eraseCache c h) := by
  unfold getCached
  rw [hl]
  show (if ttl < t - e.timestamp then (none, eraseCache c h)
        else (some e.evaluation, c)) = (none, eraseCache c h)
  rw [if_pos ht]

theorem getCached_snd_cases {ttl now : Nat} {cache : Cache} {hash : String}
    (hmiss : (getCached ttl now cache hash).1 = none) :
    ((getCached ttl now cache hash).2 = cache ∧ lookupCache cache hash = none) ∨
      (getCached ttl now cache hash).2 = eraseCache cache hash := by
  unfold getCached at hmiss ⊢
  split at hmiss
  next hlk =>
    rw [hlk]
    exact Or.inl ⟨rfl, rfl⟩
  next entry hlk =>
    rw [hlk]
    split at hmiss
    next hexp =>
      refine Or.inr ?_
      show (if ttl < now - entry.timestamp then (none, eraseCache cache hash)
            else (some entry.evaluation, cache)).2 = eraseCache cache hash
      rw [if_pos hexp]
    next hexp => simp at hmiss

/-! ## C6, C7, C10 -/

/-- The keep-valid / replace-invalid contract for each of the five
categorical fields of a validated evaluation. -/
def ValidationKeepsOrDefaults (raw : RawEval) (ev : ComplexityEvaluation) : Prop :=
  (∀ d, toReasoningDepth (raw.reasoning_depth.getD "") = some d → ev.reasoning_depth = d) ∧
  (toReasoningDepth (raw.reasoning_depth.getD "") = none → ev.reasoning_depth = .medium) ∧
  (∀ t, toTaskType (raw.task_type.getD "") = some t → ev.task_type = t) ∧
  (toTaskType (raw.task_type.getD "") = none → ev.task_type = .other) ∧
  (∀ cl, toConstraintLevel (raw.constraint_level.getD "") = some cl → ev.constraint_level = cl) ∧
  (toConstraintLevel (raw.constraint_level.getD "") = none → ev.constraint_level = .medium) ∧
  (∀ a, toAccuracyRequirement (raw.required_accuracy.getD "") = some a → ev.required_accuracy = a) ∧
  (toAccuracyRequirement (raw.required_accuracy.getD "") = none → ev.required_accuracy = .medium) ∧
  (∀ s, toTokenSize (raw.estimated_token_size.getD "") = some s → ev.estimated_token_size = s) ∧
  (toTokenSize (raw.estimated_token_size.getD "") = none → ev.estimated_token_size = .medium)

/-- C6 (amended): when all seven required keys are present, validation
never rejects: each categorical field is kept when its value belongs to
the closed enumeration and replaced by its neutral default otherwise,
independently of the other fields. -/
theorem validate_replaces_invalid_fields_when_present (raw : RawEval)
    (h : presentAll raw = true) :
    ∃ ev, validateEvaluation raw = some ev ∧ ValidationKeepsOrDefaults raw ev := by
  unfold validateEvaluation
  rw [if_pos h]
  refine ⟨_, rfl, ?_⟩
  refine ⟨fun d hd => ?_, fun hd => ?_, fun t ht => ?_, fun ht => ?_, fun cl hc => ?_,
    fun hc => ?_, fun a ha => ?_, fun ha => ?_, fun s hs => ?_, fun hs => ?_⟩ <;>
    simp [*]

/-- C6 (witness): a reply with all keys present, a valid
reasoning_depth and constraint_level, and an invalid task_type and
required_accuracy — validation keeps the valid fields and replaces the
invalid ones. -/
theorem validate_replaces_invalid_fields_witness :
    ∃ ev,
      validateEvaluation
          { reasoning_depth := some "high", task_type := some "banana",
            constraint_level := some "low", required_accuracy := some "nope",
            estimated_token_size := some "small", complexity_score := some (some 42),
            confidence := some (some (7 / 10)) } = some ev
      ∧ ValidationKeepsOrDefaults
          { reasoning_depth := some "high", task_type := some "banana",
            constraint_level := some "low", required_accuracy := some "nope",
            estimated_token_size := some "small", complexity_score := some (some 42),
            confidence := some (some (7 / 10)) } ev :=
  validate_replaces_invalid_fields_when_present _ rfl

/-- A reply whose `confidence` key is absent while every other field is
present and valid. -/
def rawMissingConfidence : RawEval :=
  { reasoning_depth := some "low", task_type := some "coding",
    constraint_level := some "low", required_accuracy := some "high",
    estimated_token_size := some "small", complexity_score := some (some 40),
    confidence := none }

/-- C6 (counterexample): a single missing key makes
`validateEvaluation` reject the whole reply (`none`, which the caller
then turns into the conservative default) instead of replacing the
missing field and keeping the six valid ones. -/
theorem validate_rejects_missing_field :
    validateEvaluation rawMissingConfidence = none := rfl

/-- C7 (counterexample): an entry whose age equals the TTL exactly is
still served from the cache (`cached = true`): the code treats an entry
as absent only when its age strictly exceeds the TTL, not when it has
merely reached it. -/
theorem cache_hit_at_exact_ttl :
    (evaluate 3600000 3600000 [("h", ⟨getDefaultEvaluation, 0⟩)] "h" 0 .fetchError).1.cached
        = true
    ∧ ¬ ((3600000 : Nat) - 0 < 3600000) := by
  exact ⟨rfl, by omega⟩

/-- C7 (amended): evaluating a fresh conversation stores the result;
re-evaluating with the same hash returns `cached = true`, latency 0 and
the identical evaluation payload exactly when the entry's age is at
most the TTL (`now - createdAt ≤ TTL`); once the age strictly exceeds
the TTL the entry is treated as absent and the second call re-evaluates
with `cached = false`. -/
theorem cache_roundtrip_ttl_le (ttl t1 t2 : Nat) (cache0 : Cache) (hash : String)
    (raw : RawEval) (v : ComplexityEvaluation) (lat lat2 : Nat) (o2 : AuxOutcome)
    (hfresh : lookupCache cache0 hash = none) (hlen : cache0.length < 1000)
    (hv : validateEvaluation raw = some v) :
    (t2 - t1 ≤ ttl →
      (evaluate ttl t2 (evaluate ttl t1 cache0 hash lat (.reply raw)).2 hash lat2 o2).1.cached
          = true
      ∧ (evaluate ttl t2 (evaluate ttl t1 cache0 hash lat (.reply raw)).2 hash lat2 o2).1.latencyMs
          = 0
      ∧ (evaluate ttl t2 (evaluate ttl t1 cache0 hash lat (.reply raw)).2 hash lat2 o2).1.evaluation
          = (evaluate ttl t1 cache0 hash lat (.reply raw)).1.evaluation)
    ∧ (ttl < t2 - t1 →
      (evaluate ttl t2 (evaluate ttl t1 cache0 hash lat (.reply raw)).2 hash lat2 o2).1.cached
          = false) := by
  have hg1 : getCached ttl t1 cache0 hash = (none, cache0) := by
    unfold getCached
    rw [hfresh]
  have hr1 : evaluate ttl t1 cache0 hash lat (.reply raw) =
      ({ evaluation := { v with complexity_score := recalculateScore v }, latencyMs := lat,
         cached := false, promptHash := hash },
        setCache cache0 hash { v with complexity_score := recalculateScore v } t1) := by
    simp [evaluate, hg1, hv]
  have hcd : (evaluate ttl t1 cache0 hash lat (.reply raw)).2 =
      setKey cache0 hash ⟨{ v with complexity_score := recalculateScore v }, t1⟩ := by
    rw [hr1]
    exact setCache_no_evict _ _ _ _ hlen
  have hlk : lookupCache
      (setKey cache0 hash ⟨{ v with complexity_score := recalculateScore v }, t1⟩) hash =
      some ⟨{ v with complexity_score := recalculateScore v }, t1⟩ :=
    lookup_setKey_self _ _ _
  constructor
  · intro hle
    have hg2 : getCached ttl t2
        (setKey cache0 hash ⟨{ v with complexity_score := recalculateScore v }, t1⟩) hash =
        (some { v with complexity_score := recalculateScore v },
          setKey cache0 hash ⟨{ v with complexity_score := recalculateScore v }, t1⟩) :=
      getCached_hit hlk (by show ¬ ttl < t2 - t1; omega)
    have h2c : evaluate ttl t2
        (setKey cache0 hash ⟨{ v with complexity_score := recalculateScore v }, t1⟩)
        hash lat2 o2 =
        ({ evaluation := { v with complexity_score := recalculateScore v }, latencyMs := 0,
           cached := true, promptHash := hash },
          setKey cache0 hash ⟨{ v with complexity_score := recalculateScore v }, t1⟩) := by
      simp [evaluate, hg2]
    rw [hcd, h2c, hr1]
    exact ⟨rfl, rfl, rfl⟩
  · intro hgt
    have hg2 : getCached ttl t2
        (setKey cache0 hash ⟨{ v with complexity_score := recalculateScore v }, t1⟩) hash =
        (none, eraseCache
          (setKey cache0 hash ⟨{ v with complexity_score := recalculateScore v }, t1⟩) hash) :=
      getCached_expired hlk (by show ttl < t2 - t1; omega)
    rw [hcd]
    cases o2 with
    | fetchError => simp [evaluate, hg2]
    | reply raw2 =>
        cases hv2 : validateEvaluation raw2 with
        | none => simp [evaluate, hg2, hv2]
        | some v2 => simp [evaluate, hg2, hv2]

/-- A reply with all keys present and valid, used as a concrete
successfully-validated auxiliary result. -/
def rawAllValid : RawEval :=
  { reasoning_depth := some "high", task_type := some "coding",
    constraint_level := some "high", required_accuracy := some "high",
    estimated_token_size := some "small", complexity_score := some (some 80),
    confidence := some (some (9 / 10)) }

/-- The evaluation obtained by validating `rawAllValid`. -/
def validAllEval : ComplexityEvaluation :=
  (validateEvaluation rawAllValid).getD getDefaultEvaluation

/-- C7 (witness): a concrete round trip — a validated reply is stored
at time 0 and looked up again at time 10 with TTL 3600000: the second
call is a cache hit with zero latency and the identical payload, and
the strict-expiry implication holds vacuously. -/
theorem cache_roundtrip_ttl_le_witness :
    ((10 : Nat) - 0 ≤ 3600000 →
      (evaluate 3600000 10
          (evaluate 3600000 0 [] "w7" 5 (.reply rawAllValid)).2 "w7" 6 .fetchError).1.cached
          = true
      ∧ (evaluate 3600000 10
          (evaluate 3600000 0 [] "w7" 5 (.reply rawAllValid)).2 "w7" 6
            .fetchError).1.latencyMs = 0
      ∧ (evaluate 3600000 10
          (evaluate 3600000 0 [] "w7" 5 (.reply rawAllValid)).2 "w7" 6
            .fetchError).1.evaluation
          = (evaluate 3600000 0 [] "w7" 5 (.reply rawAllValid)).1.evaluation)
    ∧ ((3600000 : Nat) < 10 - 0 →
      (evaluate 3600000 10
          (evaluate 3600000 0 [] "w7" 5 (.reply rawAllValid)).2 "w7" 6
            .fetchError).1.cached = false) :=
  cache_roundtrip_ttl_le 3600000 0 10 [] "w7" rawAllValid validAllEval
    5 6 .fetchError rfl (by decide) rfl

/-- A reply counts as a failure when the call itself failed or when
validation rejected the parsed object. -/
def isFailureOutcome : AuxOutcome → Bool
  | .fetchError => true
  | .reply raw => (validateEvaluation raw).isNone

/-- C10 (amended): on every path that returns the conservative default
(fetch/parse failure or validation rejection), nothing is inserted into
the cache: the requested hash has no entry afterwards (at most a stale
entry was lazily deleted), every other key is untouched, and any later
lookup of the same hash misses, forcing a fresh auxiliary call. -/
theorem default_paths_do_not_insert_cache (ttl now : Nat) (cache : Cache) (hash : String)
    (lat : Nat) (outcome : AuxOutcome)
    (hmiss : (getCached ttl now cache hash).1 = none)
    (hfail : isFailureOutcome outcome = true) :
    (evaluate ttl now cache hash lat outcome).1.evaluation = getDefaultEvaluation
    ∧ (evaluate ttl now cache hash lat outcome).1.cached = false
    ∧ lookupCache (evaluate ttl now cache hash lat outcome).2 hash = none
    ∧ (∀ k, k ≠ hash →
        lookupCache (evaluate ttl now cache hash lat outcome).2 k = lookupCache cache k)
    ∧ (∀ t2, (getCached ttl t2 (evaluate ttl now cache hash lat outcome).2 hash).1 = none) := by
  have hlknone : lookupCache (getCached ttl now cache hash).2 hash = none := by
    rcases getCached_snd_cases hmiss with ⟨hc, hl⟩ | hc
    · rw [hc]
      exact hl
    · rw [hc]
      exact lookup_eraseCache_self cache hash
  have hres : evaluate ttl now cache hash lat outcome =
      ({ evaluation := getDefaultEvaluation, latencyMs := lat, cached := false,
         promptHash := hash }, (getCached ttl now cache hash).2) := by
    rcases hgc : getCached ttl now cache hash with ⟨r, c2⟩
    have hr : r = none := by rw [hgc] at hmiss; exact hmiss
    subst hr
    cases outcome with
    | fetchError => simp [evaluate, hgc]
    | reply raw =>
        have hvn : validateEvaluation raw = none := by
          unfold isFailureOutcome at hfail
          exact Option.isNone_iff_eq_none.1 hfail
        simp [evaluate, hgc, hvn]
  refine ⟨by rw [hres], by rw [hres], by rw [hres]; exact hlknone, ?_, ?_⟩
  · intro k hk
    rw [hres]
    show lookupCache (getCached ttl now cache hash).2 k = _
    rcases getCached_snd_cases hmiss with ⟨hc, _⟩ | hc
    · rw [hc]
    · rw [hc]
      exact lookup_eraseCache_ne cache hash k hk
  · intro t2
    rw [hres]
    exact getCached_none_of_lookup_none hlknone

/-- C10 (witness): on the empty cache a failing auxiliary call returns
the default and leaves the cache without any entry for the hash. -/
theorem default_paths_do_not_insert_cache_witness :
    (evaluate 3600000 3 [] "w10" 4 .fetchError).1.evaluation = getDefaultEvaluation
    ∧ (evaluate 3600000 3 [] "w10" 4 .fetchError).1.cached = false
    ∧ lookupCache (evaluate 3600000 3 [] "w10" 4 .fetchError).2 "w10" = none
    ∧ (∀ k, k ≠ "w10" →
        lookupCache (evaluate 3600000 3 [] "w10" 4 .fetchError).2 k =
          lookupCache ([] : Cache) k)
    ∧ (∀ t2, (getCached 3600000 t2 (evaluate 3600000 3 [] "w10" 4 .fetchError).2 "w10").1
        = none) :=
  default_paths_do_not_insert_cache 3600000 3 [] "w10" 4 .fetchError rfl rfl

/-- The stale cache used in the C10 counterexample: one entry of age 11
against a TTL of 10. -/
def staleCache : Cache := [("h", ⟨getDefaultEvaluation, 0⟩)]

/-- C10 (counterexample): when the looked-up entry has expired and the
auxiliary call then fails, `evaluate` returns the default *and still
changes the cache* — the expired entry is lazily deleted during lookup,
so "the cache is left unchanged" does not hold as stated. -/
theorem expired_entry_deleted_on_failure_path :
    (evaluate 10 11 staleCache "h" 0 .fetchError).1.evaluation = getDefaultEvaluation
    ∧ (evaluate 10 11 staleCache "h" 0 .fetchError).2 ≠ staleCache := by
  constructor
  · rfl
  · intro hcontra
    have hlen0 : (evaluate 10 11 staleCache "h" 0 .fetchError).2.length = 0 := rfl
    rw [hcontra] at hlen0
    simp [staleCache] at hlen0

/-- C8: the streaming relay is invariant under the chunking of the
backend byte stream — any splitting into reads yields the same parsed
output as reading the whole stream at once (partial lines are buffered,
only complete lines are parsed); a line the loop skips (empty, tagless,
or a data line whose payload fails to parse) contributes nothing and
does not abort the relay of the remaining stream; a data line with a
nonempty whitespace-free payload is skipped exactly when its payload
fails to parse; and the `[DONE]` sentinel is translated into the
explicit end-of-stream marker. -/
theorem relay_chunking_invariant (P : Type) (parse : List Char → Option P)
    (cs : List (List Char)) :
    relayRun parse cs = relayRun parse [cs.flatten]
    ∧ (∀ l rest, noNL l → processLine parse l = none →
        relayRun parse [(l ++ ['\n']) ++ rest] = relayRun parse [rest])
    ∧ (∀ payload, payload ≠ [] → noWS payload →
        processLine parse ("data: ".data ++ payload) =
          (if payload = "[DONE]".data then some RelayOut.done
            else
              match parse payload with
              | some c => some (RelayOut.data c)
              | none => none))
    ∧ relayRun parse [("data: ".data ++ "[DONE]".data ++ ['\n'])] = [RelayOut.done] := by
  refine ⟨?_, ?_, ?_, ?_⟩
  · show runFrom parse [] cs = runFrom parse [] [cs.flatten]
    rw [runFrom_join parse cs [] noNL_nil, runFrom_join parse [cs.flatten] [] noNL_nil]
    simp
  · intro l rest hl hpl
    show (feedChunk parse [] ((l ++ ['\n']) ++ rest)).2 ++ [] =
      (feedChunk parse [] rest).2 ++ []
    rw [List.append_nil, List.append_nil]
    show (splitLinesAux [] ([] ++ ((l ++ ['\n']) ++ rest))).1.filterMap (processLine parse) =
      (splitLinesAux [] ([] ++ rest)).1.filterMap (processLine parse)
    rw [List.nil_append, List.nil_append, splitLinesAux_line l rest hl []]
    simp [List.filterMap_cons, hpl]
  · exact processLine_data_line parse
  · rfl

/-- A concrete payload format for the relay witness: the single
character 4 parses to the number 4, everything else is malformed. -/
def parseW : List Char → Option Nat :=
  fun l => if l = "4".data then some 4 else none

/-- C8 (witness): the invariance instantiated on a concrete chunking
that splits mid-line, a concrete malformed data line skipped with the
following good line still relayed, the data-line characterisation at a
concrete unparsable payload, and the sentinel translation. -/
theorem relay_chunking_invariant_witness :
    relayRun parseW ["data: 4".data, "\nda".data, "ta: 4\n".data] =
      relayRun parseW [(["data: 4".data, "\nda".data, "ta: 4\n".data] :
        List (List Char)).flatten]
    ∧ relayRun parseW [("data: x".data ++ ['\n']) ++ "data: 4\n".data] =
      relayRun parseW ["data: 4\n".data]
    ∧ processLine parseW ("data: ".data ++ "x".data) =
        (if "x".data = "[DONE]".data then some RelayOut.done
          else
            match parseW "x".data with
            | some c => some (RelayOut.data c)
            | none => none)
    ∧ relayRun parseW [("data: ".data ++ "[DONE]".data ++ ['\n'])] = [RelayOut.done] := by
  refine ⟨?_, ?_, ?_, ?_⟩
  · exact (relay_chunking_invariant Nat parseW
      ["data: 4".data, "\nda".data, "ta: 4\n".data]).1
  · exact (relay_chunking_invariant Nat parseW []).2.1 "data: x".data "data: 4\n".data
      (by decide) (by decide)
  · exact (relay_chunking_invariant Nat parseW []).2.2.1 "x".data (by decide) (by decide)
  · exact (relay_chunking_invariant Nat parseW []).2.2.2

/-! ## Forwarding-layer lemmas and claims C3, C4, C5 -/

theorem forwardedRequest_explicit_model {α : Type} (ps : ProvidersConfig) (t t' : RouteTier)
    (req : ProxyRequest α)
    (h : req.model = tierName t ∨ req.model = "helix-router/" ++ tierName t) :
    (HelixProxy.forwardedRequest ps req t').model = (ps.get t).model := by
  cases t <;> rcases h with h | h <;>
    simp [HelixProxy.forwardedRequest, tierName, ProvidersConfig.get, h]

/-- Every forwarding attempt of handleRequest sends a request built by
forwardRequest for some tier. -/
theorem handleRequest_attempts_shape {α β : Type} (ps : ProvidersConfig)
    (computed : Except String RouteTier)
    (backend : RouteTier → ProxyRequest α → BackendOutcome β) (req : ProxyRequest α) :
    ∀ a ∈ (HelixProxy.handleRequest ps computed backend req).2,
      ∃ t', a.2 = HelixProxy.forwardedRequest ps req t' := by
  intro a ha
  rcases computed with e | t
  · cases hb : backend .mid (HelixProxy.forwardedRequest ps req .mid) with
    | reply s b =>
        simp [HelixProxy.handleRequest, hb] at ha
        exact ⟨.mid, by rw [ha]⟩
    | netError =>
        simp [HelixProxy.handleRequest, hb] at ha
        exact ⟨.mid, by rw [ha]⟩
  · cases hb1 : backend t (HelixProxy.forwardedRequest ps req t) with
    | reply s b =>
        simp [HelixProxy.handleRequest, hb1] at ha
        exact ⟨t, by rw [ha]⟩
    | netError =>
        cases hb2 : backend .mid (HelixProxy.forwardedRequest ps req .mid) with
        | reply s b =>
            simp [HelixProxy.handleRequest, hb1, hb2] at ha
            rcases ha with ha | ha
            · exact ⟨t, by rw [ha]⟩
            · exact ⟨.mid, by rw [ha]⟩
        | netError =>
            simp [HelixProxy.handleRequest, hb1, hb2] at ha
            rcases ha with ha | ha
            · exact ⟨t, by rw [ha]⟩
            · exact ⟨.mid, by rw [ha]⟩

/-- A concrete three-tier provider configuration used by the closed
counterexamples and witnesses below. -/
def sampleProviders : ProvidersConfig :=
  ⟨⟨"u", "k", "backend-pro"⟩, ⟨"u", "k", "backend-mid"⟩, ⟨"u", "k", "backend-low"⟩⟩

/-- C3 (counterexample): when forwarding the stream to the computed
tier fails, handleStreamRequest rethrows after its single attempt — no
mid fallback ever happens on the streaming path, so the single-fallback
policy is not uniform across the two paths. -/
theorem stream_error_rethrown_without_fallback :
    (HelixProxy.handleStreamRequest (α := Unit) (P := Unit) sampleProviders (.ok .pro)
        (fun _ _ => .netError) (fun _ => none) ⟨"auto", true, ()⟩).1 =
      .thrown "fetch failed"
    ∧ (HelixProxy.handleStreamRequest (α := Unit) (P := Unit) sampleProviders (.ok .pro)
        (fun _ _ => .netError) (fun _ => none) ⟨"auto", true, ()⟩).2 =
      [(RouteTier.pro,
          HelixProxy.streamRequest sampleProviders ⟨"auto", true, ()⟩ RouteTier.pro)] :=
  ⟨rfl, rfl⟩

/-- C3 (amended): the single mid fallback exists only on the
non-streaming path — handleRequest makes at most two forwarding
attempts, every attempt after the first targets mid with the original
payload, an evaluation/decision error or a rejected primary fetch leads
to exactly one mid attempt, and only when every fetch rejects does an
error propagate; handleStreamRequest makes at most one attempt, always
to the computed tier, and a rejected stream fetch is rethrown with no
further attempt. -/
theorem fallback_only_on_nonstreaming_path {α β P : Type} (ps : ProvidersConfig)
    (computed : Except String RouteTier)
    (bN : RouteTier → ProxyRequest α → BackendOutcome β)
    (bS : RouteTier → ProxyRequest α → BackendOutcome (List (List Char)))
    (parse : List Char → Option P) (req : ProxyRequest α) :
    ((HelixProxy.handleRequest ps computed bN req).2.length ≤ 2
      ∧ (∀ a ∈ (HelixProxy.handleRequest ps computed bN req).2.drop 1,
          a.1 = RouteTier.mid ∧ a.2.payload = req.payload)
      ∧ (∀ t, computed = .ok t →
          bN t (HelixProxy.forwardedRequest ps req t) = .netError →
          (HelixProxy.handleRequest ps computed bN req).2 =
            [(t, HelixProxy.forwardedRequest ps req t),
              (RouteTier.mid, HelixProxy.forwardedRequest ps req RouteTier.mid)])
      ∧ (∀ e, computed = .error e →
          (HelixProxy.handleRequest ps computed bN req).2 =
            [(RouteTier.mid, HelixProxy.forwardedRequest ps req RouteTier.mid)])
      ∧ ((∀ a ∈ (HelixProxy.handleRequest ps computed bN req).2, bN a.1 a.2 = .netError) →
          (HelixProxy.handleRequest ps computed bN req).1 = .thrown "fetch failed"))
    ∧ ((HelixProxy.handleStreamRequest ps computed bS parse req).2.length ≤ 1
      ∧ (∀ a ∈ (HelixProxy.handleStreamRequest ps computed bS parse req).2,
          computed = .ok a.1)
      ∧ (∀ t, computed = .ok t →
          bS t (HelixProxy.streamRequest ps req t) = .netError →
          (HelixProxy.handleStreamRequest ps computed bS parse req).1 =
            .thrown "fetch failed"
          ∧ (HelixProxy.handleStreamRequest ps computed bS parse req).2 =
            [(t, HelixProxy.streamRequest ps req t)])) := by
  constructor
  · rcases computed with e | t
    · cases hb : bN .mid (HelixProxy.forwardedRequest ps req .mid) with
      | reply s b =>
          have hc : HelixProxy.handleRequest ps (.error e) bN req =
              (.response .mid s b,
                [(RouteTier.mid, HelixProxy.forwardedRequest ps req RouteTier.mid)]) := by
            simp [HelixProxy.handleRequest, hb]
          refine ⟨?_, ?_, ?_, ?_, ?_⟩
          · rw [hc]
            simp
          · rw [hc]
            intro a ha
            simp at ha
          · intro t ht
            cases ht
          · intro e' _
            rw [hc]
          · intro hall
            have := hall (.mid, HelixProxy.forwardedRequest ps req .mid) (by rw [hc]; simp)
            rw [hb] at this
            cases this
      | netError =>
          have hc : HelixProxy.handleRequest ps (.error e) bN req =
              (.thrown "fetch failed",
                [(RouteTier.mid, HelixProxy.forwardedRequest ps req RouteTier.mid)]) := by
            simp [HelixProxy.handleRequest, hb]
          refine ⟨?_, ?_, ?_, ?_, ?_⟩
          · rw [hc]
            simp
          · rw [hc]
            intro a ha
            simp at ha
          · intro t ht
            cases ht
          · intro e' _
            rw [hc]
          · intro _
            rw [hc]
    · cases hb1 : bN t (HelixProxy.forwardedRequest ps req t) with
      | reply s b =>
          have hc : HelixProxy.handleRequest ps (.ok t) bN req =
              (.response t s b, [(t, HelixProxy.forwardedRequest ps req t)]) := by
            simp [HelixProxy.handleRequest, hb1]
          refine ⟨?_, ?_, ?_, ?_, ?_⟩
          · rw [hc]
            simp
          · rw [hc]
            intro a ha
            simp at ha
          · intro t' ht' hfail
            injection ht' with ht'
            subst ht'
            rw [hfail] at hb1
            cases hb1
          · intro e' he'
            cases he'
          · intro hall
            have := hall (t, HelixProxy.forwardedRequest ps req t) (by rw [hc]; simp)
            rw [hb1] at this
            cases this
      | netError =>
          cases hb2 : bN .mid (HelixProxy.forwardedRequest ps req .mid) with
          | reply s b =>
              have hc : HelixProxy.handleRequest ps (.ok t) bN req =
                  (.response .mid s b,
                    [(t, HelixProxy.forwardedRequest ps req t),
                      (RouteTier.mid, HelixProxy.forwardedRequest ps req RouteTier.mid)]) := by
                simp [HelixProxy.handleRequest, hb1, hb2]
              refine ⟨?_, ?_, ?_, ?_, ?_⟩
              · rw [hc]
                simp
              · rw [hc]
                intro a ha
                simp at ha
                subst ha
                exact ⟨rfl, rfl⟩
              · intro t' ht' _
                injection ht' with ht'
                subst ht'
                rw [hc]
              · intro e' he'
                cases he'
              · intro hall
                have := hall (.mid, HelixProxy.forwardedRequest ps req .mid)
                  (by rw [hc]; simp)
                rw [hb2] at this
                cases this
          | netError =>
              have hc : HelixProxy.handleRequest ps (.ok t) bN req =
                  (.thrown "fetch failed",
                    [(t, HelixProxy.forwardedRequest ps req t),
                      (RouteTier.mid, HelixProxy.forwardedRequest ps req RouteTier.mid)]) := by
                simp [HelixProxy.handleRequest, hb1, hb2]
              refine ⟨?_, ?_, ?_, ?_, ?_⟩
              · rw [hc]
                simp
              · rw [hc]
                intro a ha
                simp at ha
                subst ha
                exact ⟨rfl, rfl⟩
              · intro t' ht' _
                injection ht' with ht'
                subst ht'
                rw [hc]
              · intro e' he'
                cases he'
              · intro _
                rw [hc]
  · rcases computed with e | t
    · refine ⟨?_, ?_, ?_⟩
      · simp [HelixProxy.handleStreamRequest]
      · intro a ha
        simp [HelixProxy.handleStreamRequest] at ha
      · intro t ht
        cases ht
    · cases hb : bS t (HelixProxy.streamRequest ps req t) with
      | netError =>
          have hc : HelixProxy.handleStreamRequest ps (.ok t) bS parse req =
              (.thrown "fetch failed", [(t, HelixProxy.streamRequest ps req t)]) := by
            simp [HelixProxy.handleStreamRequest, hb]
          refine ⟨?_, ?_, ?_⟩
          · rw [hc]
            simp
          · rw [hc]
            intro a ha
            simp at ha
            subst ha
            rfl
          · intro t' ht' _
            injection ht' with ht'
            subst ht'
            exact ⟨by rw [hc], by rw [hc]⟩
      | reply s body =>
          by_cases h2xx : 200 ≤ s ∧ s < 300
          · have hc : HelixProxy.handleStreamRequest ps (.ok t) bS parse req =
                (.chunks t (relayRun parse body),
                  [(t, HelixProxy.streamRequest ps req t)]) := by
              simp [HelixProxy.handleStreamRequest, hb, h2xx]
            refine ⟨?_, ?_, ?_⟩
            · rw [hc]
              simp
            · rw [hc]
              intro a ha
              simp at ha
              subst ha
              rfl
            · intro t' ht' hfail
              injection ht' with ht'
              subst ht'
              rw [hfail] at hb
              cases hb
          · have hc : HelixProxy.handleStreamRequest ps (.ok t) bS parse req =
                (.thrown "Provider error",
                  [(t, HelixProxy.streamRequest ps req t)]) := by
              simp [HelixProxy.handleStreamRequest, hb, h2xx]
            refine ⟨?_, ?_, ?_⟩
            · rw [hc]
              simp
            · rw [hc]
              intro a ha
              simp at ha
              subst ha
              rfl
            · intro t' ht' hfail
              injection ht' with ht'
              subst ht'
              rw [hfail] at hb
              cases hb

/-- C3 (witness): with every fetch rejecting and a computed `pro`
tier, the non-streaming path makes exactly the two attempts `pro` then
`mid` and propagates a thrown error; the streaming path rethrows
instead of falling back. -/
theorem fallback_only_on_nonstreaming_path_witness :
    (HelixProxy.handleRequest (α := Unit) (β := Unit) sampleProviders (.ok .pro)
        (fun _ _ => .netError) ⟨"auto", false, ()⟩).2 =
      [(RouteTier.pro,
          HelixProxy.forwardedRequest sampleProviders ⟨"auto", false, ()⟩ RouteTier.pro),
        (RouteTier.mid,
          HelixProxy.forwardedRequest sampleProviders ⟨"auto", false, ()⟩ RouteTier.mid)]
    ∧ (HelixProxy.handleRequest (α := Unit) (β := Unit) sampleProviders (.ok .pro)
        (fun _ _ => .netError) ⟨"auto", false, ()⟩).1 = .thrown "fetch failed"
    ∧ (HelixProxy.handleStreamRequest (α := Unit) (P := Unit) sampleProviders (.ok .pro)
        (fun _ _ => .netError) (fun _ => none) ⟨"auto", true, ()⟩).1 =
      .thrown "fetch failed" := by
  refine ⟨?_, ?_, ?_⟩
  · exact (fallback_only_on_nonstreaming_path (α := Unit) (β := Unit) (P := Unit)
      sampleProviders (.ok .pro)
      (fun _ _ => .netError) (fun _ _ => .netError) (fun _ => none)
      ⟨"auto", false, ()⟩).1.2.2.1 .pro rfl rfl
  · exact (fallback_only_on_nonstreaming_path (α := Unit) (β := Unit) (P := Unit)
      sampleProviders (.ok .pro)
      (fun _ _ => .netError) (fun _ _ => .netError) (fun _ => none)
      ⟨"auto", false, ()⟩).1.2.2.2.2 (fun a _ => rfl)
  · exact ((fallback_only_on_nonstreaming_path (α := Unit) (β := Unit) (P := Unit)
      sampleProviders (.ok .pro)
      (fun _ _ => .netError) (fun _ _ => .netError) (fun _ => none)
      ⟨"auto", true, ()⟩).2.2.2 .pro rfl rfl).1

/-- C4 (counterexample): a 500 reply from the computed tier's backend
is returned to the caller as-is after a single forwarding attempt —
forwardRequest never checks `response.ok`, so a non-2xx status triggers
no mid fallback on the non-streaming path. -/
theorem non2xx_returned_from_computed_tier :
    (HelixProxy.handleRequest (α := Unit) (β := Unit) sampleProviders (.ok .pro)
        (fun _ _ => .reply 500 ()) ⟨"auto", false, ()⟩).1 =
      .response RouteTier.pro 500 ()
    ∧ (HelixProxy.handleRequest (α := Unit) (β := Unit) sampleProviders (.ok .pro)
        (fun _ _ => .reply 500 ()) ⟨"auto", false, ()⟩).2.length = 1 :=
  ⟨rfl, rfl⟩

/-- C4 (amended): on the non-streaming path any backend reply — 2xx or
not — is returned unchanged with exactly one forwarding attempt; only a
rejected fetch triggers the single mid fallback, whose reply of any
status is then returned, and a second rejected fetch propagates as a
thrown error. -/
theorem non2xx_passed_through_without_fallback {α β : Type} (ps : ProvidersConfig)
    (t : RouteTier) (backend : RouteTier → ProxyRequest α → BackendOutcome β)
    (req : ProxyRequest α) :
    (∀ s b, backend t (HelixProxy.forwardedRequest ps req t) = .reply s b →
      (HelixProxy.handleRequest ps (.ok t) backend req).1 = .response t s b
      ∧ (HelixProxy.handleRequest ps (.ok t) backend req).2 =
          [(t, HelixProxy.forwardedRequest ps req t)])
    ∧ (backend t (HelixProxy.forwardedRequest ps req t) = .netError →
        (∀ s2 b2,
          backend .mid (HelixProxy.forwardedRequest ps req .mid) = .reply s2 b2 →
          (HelixProxy.handleRequest ps (.ok t) backend req).1 =
            .response RouteTier.mid s2 b2)
        ∧ (backend .mid (HelixProxy.forwardedRequest ps req .mid) = .netError →
            (HelixProxy.handleRequest ps (.ok t) backend req).1 =
              .thrown "fetch failed")) := by
  constructor
  · intro s b hb
    constructor
    · simp [HelixProxy.handleRequest, hb]
    · simp [HelixProxy.handleRequest, hb]
  · intro hb1
    constructor
    · intro s2 b2 hb2
      simp [HelixProxy.handleRequest, hb1, hb2]
    · intro hb2
      simp [HelixProxy.handleRequest, hb1, hb2]

/-- C4 (witness): a 500 from the computed `pro` backend passes through
untouched; with a rejecting `pro` fetch and a 200 `mid` reply, the
fallback's response is returned. -/
theorem non2xx_passed_through_without_fallback_witness :
    ((HelixProxy.handleRequest (α := Unit) (β := Unit) sampleProviders (.ok .pro)
        (fun _ _ => .reply 502 ()) ⟨"auto", false, ()⟩).1 =
      .response RouteTier.pro 502 ()
    ∧ (HelixProxy.handleRequest (α := Unit) (β := Unit) sampleProviders (.ok .pro)
        (fun _ _ => .reply 502 ()) ⟨"auto", false, ()⟩).2 =
      [(RouteTier.pro,
          HelixProxy.forwardedRequest sampleProviders ⟨"auto", false, ()⟩ RouteTier.pro)])
    ∧ (HelixProxy.handleRequest (α := Unit) (β := Unit) sampleProviders (.ok .pro)
        (fun tr _ => if tr = .pro then .netError else .reply 200 ())
        ⟨"auto", false, ()⟩).1 = .response RouteTier.mid 200 () := by
  refine ⟨?_, ?_⟩
  · exact (non2xx_passed_through_without_fallback sampleProviders .pro
      (fun _ _ => .reply 502 ()) ⟨"auto", false, ()⟩).1 502 () rfl
  · exact ((non2xx_passed_through_without_fallback sampleProviders .pro
      (fun tr _ => if tr = .pro then .netError else .reply 200 ())
      ⟨"auto", false, ()⟩).2 rfl).1 200 () rfl

/-- C5 (counterexample): a streaming request that explicitly names the
`pro` tier in its model but is routed to `low` is forwarded with the
low provider's model id — handleStreamRequest applies no explicit-tier
override, so the override does not hold on both paths. -/
theorem stream_ignores_explicit_tier :
    (HelixProxy.handleStreamRequest (α := Unit) (P := Unit) sampleProviders (.ok .low)
        (fun _ _ => .reply 200 []) (fun _ => none) ⟨"pro", true, ()⟩).2 =
      [(RouteTier.low, ⟨"backend-low", true, ()⟩)]
    ∧ sampleProviders.pro.model = "backend-pro"
    ∧ ("backend-low" : String) ≠ "backend-pro" := by
  refine ⟨?_, rfl, by decide⟩
  rfl

/-- C5 (amended): an explicit tier name in the request's model wins on
every attempt of the non-streaming path, including the mid fallback;
the streaming path ignores it — each of its attempts carries the
computed tier's configured model id. -/
theorem explicit_override_only_nonstreaming {α β P : Type} (ps : ProvidersConfig)
    (computed : Except String RouteTier)
    (bN : RouteTier → ProxyRequest α → BackendOutcome β)
    (bS : RouteTier → ProxyRequest α → BackendOutcome (List (List Char)))
    (parse : List Char → Option P) (req : ProxyRequest α) (t : RouteTier)
    (h : req.model = tierName t ∨ req.model = "helix-router/" ++ tierName t) :
    (∀ a ∈ (HelixProxy.handleRequest ps computed bN req).2,
      a.2.model = (ps.get t).model)
    ∧ (∀ a ∈ (HelixProxy.handleStreamRequest ps computed bS parse req).2,
        a.2.model = (ps.get a.1).model ∧ computed = .ok a.1) := by
  constructor
  · intro a ha
    obtain ⟨t', ht'⟩ := handleRequest_attempts_shape ps computed bN req a ha
    rw [ht']
    exact forwardedRequest_explicit_model ps t t' req h
  · intro a ha
    rcases computed with e | tc
    · simp [HelixProxy.handleStreamRequest] at ha
    · cases hb : bS tc (HelixProxy.streamRequest ps req tc) with
      | netError =>
          simp [HelixProxy.handleStreamRequest, hb] at ha
          subst ha
          exact ⟨rfl, rfl⟩
      | reply s body =>
          by_cases h2xx : 200 ≤ s ∧ s < 300
          · simp [HelixProxy.handleStreamRequest, hb, h2xx] at ha
            subst ha
            exact ⟨rfl, rfl⟩
          · simp [HelixProxy.handleStreamRequest, hb, h2xx] at ha
            subst ha
            exact ⟨rfl, rfl⟩

/-- C5 (witness): a request with model `"pro"` routed by a computed
`low` decision uses the pro model id on the non-streaming attempts but
the low model id on the streaming attempt. -/
theorem explicit_override_only_nonstreaming_witness :
    (∀ a ∈ (HelixProxy.handleRequest (α := Unit) (β := Unit) sampleProviders (.ok .low)
        (fun _ _ => .netError) ⟨"pro", true, ()⟩).2,
      a.2.model = (sampleProviders.get RouteTier.pro).model)
    ∧ (∀ a ∈ (HelixProxy.handleStreamRequest (α := Unit) (P := Unit) sampleProviders
        (.ok .low) (fun _ _ => .netError) (fun _ => none) ⟨"pro", true, ()⟩).2,
        a.2.model = (sampleProviders.get a.1).model
        ∧ (.ok .low : Except String RouteTier) = .ok a.1) :=
  explicit_override_only_nonstreaming sampleProviders (.ok .low)
    (fun _ _ => .netError) (fun _ _ => .netError) (fun _ => none)
    ⟨"pro", true, ()⟩ RouteTier.pro (Or.inl rfl)

/-- C9 (witness): two concrete entries with scores 10 and 15, one of
them a cache hit — the mean 12.5 rounds to 13 and the hit rate 50. -/
theorem stats_avg_and_hit_rate_witness :
    (([⟨10, .pro, .coding, 100, 20, true⟩, ⟨15, .mid, .other, 50, 10, false⟩] :
        List RoutingLogEntry).foldl record resetStats).avgScore =
      jsRound (([⟨10, .pro, .coding, 100, 20, true⟩, ⟨15, .mid, .other, 50, 10, false⟩] :
        List RoutingLogEntry).map RoutingLogEntry.score).sum 2
    ∧ (([⟨10, .pro, .coding, 100, 20, true⟩, ⟨15, .mid, .other, 50, 10, false⟩] :
        List RoutingLogEntry).foldl record resetStats).cacheHitRate =
      jsRound (100 * (([⟨10, .pro, .coding, 100, 20, true⟩,
        ⟨15, .mid, .other, 50, 10, false⟩] :
        List RoutingLogEntry).filter (fun e => e.cached)).length) 2 :=
  stats_avg_and_hit_rate _ (List.cons_ne_nil _ _)

end HelixRouter
